import Mathlib

/-!
Verification of the Yahoo-Finance historical-price extractor
(`Relevent File/Close to final/extract.py`).

The embedding works at the level of extracted cell texts: BeautifulSoup's
HTML parsing itself is below the abstraction floor, so a table is modelled
as its `thead` text (if any) together with the list of its `tbody` rows,
each row being the list of its `td` cell texts (the head cell already being
the date text the code extracts).  Numeric strings are modelled as exact
rationals; the IEEE special spellings accepted by Python's `float`
("inf", "nan", ...) fall outside the rational model and outside every input
dealt with here.  Python exceptions are modelled with `Except`.
-/

/-- Character-list version of `startsWith`: the first argument is the
pattern, the second the text. -/
def listStartsWith : List Char → List Char → Bool
  | [], _ => true
  | _ :: _, [] => false
  | p :: ps, t :: ts => p == t && listStartsWith ps ts

/-- Substring occurrence on character lists (Python's `pat in text`). -/
def listContains (pat : List Char) : List Char → Bool
  | [] => pat.isEmpty
  | t :: ts => listStartsWith pat (t :: ts) || listContains pat ts

/-- Python's `pat in hay` on strings. -/
def strContains (hay pat : String) : Bool :=
  listContains pat.toList hay.toList

/-- Python's `s.replace(',', '')`. -/
def stripCommas (s : String) : String :=
  (s.toList.filter (fun c => c ≠ ',')).asString

/-- The header normalisation performed by the source:
`' '.join(thead.get_text(' ').strip().lower().split())`. -/
def normHeader (s : String) : String :=
  String.intercalate " "
    (((String.map Char.toLower s).split Char.isWhitespace).filter (fun t => t ≠ ""))

/-- Value of a digit list read in base 10. -/
def digitsToNat (cs : List Char) : Nat :=
  cs.foldl (fun a c => a * 10 + (c.toNat - 48)) 0

def allDigits (cs : List Char) : Bool := cs.all Char.isDigit

/-- Split a character list at the first character satisfying `p`; the second
component is the remainder after the separator, or `none` if absent. -/
def splitAtFirst (p : Char → Bool) : List Char → List Char × Option (List Char)
  | [] => ([], none)
  | c :: cs =>
    if p c then ([], some cs)
    else
      let r := splitAtFirst p cs
      (c :: r.1, r.2)

/-- Mantissa with a decimal point: at least one side must carry digits. -/
def parseFrac (intPart fracPart : List Char) : Option ℚ :=
  if intPart.isEmpty && fracPart.isEmpty then none
  else if allDigits intPart && allDigits fracPart then
    some ((digitsToNat intPart : ℚ) + (digitsToNat fracPart : ℚ) / (10 : ℚ) ^ fracPart.length)
  else none

/-- Unsigned mantissa of a Python float literal. -/
def parseMant (cs : List Char) : Option ℚ :=
  match splitAtFirst (fun c => c == '.') cs with
  | (intPart, none) =>
    if !intPart.isEmpty && allDigits intPart then some (digitsToNat intPart : ℚ) else none
  | (intPart, some fracPart) => parseFrac intPart fracPart

/-- Signed exponent part of a Python float literal. -/
def parseExp : List Char → Option ℤ
  | '+' :: rest => if !rest.isEmpty && allDigits rest then some (digitsToNat rest : ℤ) else none
  | '-' :: rest => if !rest.isEmpty && allDigits rest then some (-(digitsToNat rest : ℤ)) else none
  | rest => if !rest.isEmpty && allDigits rest then some (digitsToNat rest : ℤ) else none

/-- Unsigned Python float literal: mantissa with optional exponent. -/
def parseUnsigned (cs : List Char) : Option ℚ :=
  match splitAtFirst (fun c => c == 'e' || c == 'E') cs with
  | (mant, none) => parseMant mant
  | (mant, some ex) =>
    match parseMant mant, parseExp ex with
    | some m, some e => some (m * (10 : ℚ) ^ e)
    | _, _ => none

/-- Optionally signed Python float literal. -/
def parseSigned : List Char → Option ℚ
  | '+' :: rest => parseUnsigned rest
  | '-' :: rest => (parseUnsigned rest).map (fun q => -q)
  | cs => parseUnsigned cs

def trimWs (cs : List Char) : List Char :=
  ((cs.dropWhile Char.isWhitespace).reverse.dropWhile Char.isWhitespace).reverse

/-- Python's `float(s)` on finite decimal inputs, as an exact rational;
`none` models a raised `ValueError`. -/
def pyFloat (s : String) : Option ℚ :=
  parseSigned (trimWs s.toList)

/-- The single exception kind the coercion helpers can raise. -/
inductive PyErr where
  | valueError
deriving DecidableEq

/-- Body of the source's `to_float` before its `except` clause:
strip commas, return `None` for the sentinels `''`, `'-'`, `'N/A'`,
otherwise `float(x)` (which may raise). -/
def to_float_try (s : String) : Except PyErr (Option ℚ) :=
  let x := stripCommas s
  if x = "" ∨ x = "-" ∨ x = "N/A" then .ok none
  else
    match pyFloat x with
    | some q => .ok (some q)
    | none => .error PyErr.valueError

/-- The source's `to_float`: the surrounding `try/except` turns any raised
exception into `None`, so the function is total. -/
def to_float (s : String) : Option ℚ :=
  match to_float_try s with
  | .ok v => v
  | .error _ => none

/-- Truncation toward zero, Python's `int(...)` on a float value. -/
def pyTrunc (q : ℚ) : ℤ :=
  if q < 0 then -⌊-q⌋ else ⌊q⌋

/-- Body of the source's `to_int` before its `except` clause. -/
def to_int_try (s : String) : Except PyErr (Option ℤ) :=
  let x := stripCommas s
  if x = "" ∨ x = "-" ∨ x = "N/A" then .ok none
  else
    match pyFloat x with
    | some q => .ok (some (pyTrunc q))
    | none => .error PyErr.valueError

/-- The source's `to_int`: `int(float(x))` with sentinel handling, never
raising. -/
def to_int (s : String) : Option ℤ :=
  match to_int_try s with
  | .ok v => v
  | .error _ => none

def isLeap (y : Nat) : Bool :=
  (y % 4 = 0 && y % 100 ≠ 0) || y % 400 = 0

def daysInMonth (m y : Nat) : Nat :=
  if m = 2 then (if isLeap y then 29 else 28)
  else if m = 4 ∨ m = 6 ∨ m = 9 ∨ m = 11 then 30
  else 31

def monthNum (s : String) : Option Nat :=
  match s with
  | "Jan" => some 1
  | "Feb" => some 2
  | "Mar" => some 3
  | "Apr" => some 4
  | "May" => some 5
  | "Jun" => some 6
  | "Jul" => some 7
  | "Aug" => some 8
  | "Sep" => some 9
  | "Oct" => some 10
  | "Nov" => some 11
  | "Dec" => some 12
  | _ => none

def parseNatStr (s : String) : Option Nat :=
  if !s.toList.isEmpty && allDigits s.toList then some (digitsToNat s.toList) else none

/-- Model of `pd.to_datetime(..., errors='coerce')` on the page's rendered
date format "D Mon YYYY"; an invalid or differently shaped date yields
`none` (pandas' `NaT`, which the source then drops).  The result is encoded
as `y*10000 + m*100 + d`, whose order and equality agree with the calendar
order and equality of the dates. -/
def parseDate (s : String) : Option Nat :=
  match s.split (fun c => c == ' ') with
  | [d, m, y] =>
    match parseNatStr d, monthNum m, parseNatStr y with
    | some dn, some mn, some yn =>
      if 1 ≤ dn ∧ dn ≤ daysInMonth mn yn then some (yn * 10000 + mn * 100 + dn) else none
    | _, _, _ => none
  | _ => none

/-- Round half to even, the mode used by `pandas.Series.round`. -/
def roundHalfEven (q : ℚ) : ℤ :=
  let f : ℤ := ⌊q⌋
  let r : ℚ := q - (f : ℚ)
  if r < 1 / 2 then f
  else if 1 / 2 < r then f + 1
  else if f % 2 = 0 then f else f + 1

/-- Rounding to 4 decimal places (`.round(4)` in the source). -/
def round4 (q : ℚ) : ℚ :=
  (roundHalfEven (q * 10000) : ℚ) / 10000

/-- One normalized output record of `parse_table_html`; `none` fields model
pandas nulls. -/
structure PriceRecord where
  date : Nat
  open_ : Option ℚ
  high : Option ℚ
  low : Option ℚ
  close : Option ℚ
  adjClose : Option ℚ
  volume : Option ℤ
  dailyReturn : Option ℚ
deriving DecidableEq

/-- Ordering used by `df.sort_values('Date')`. -/
def dateLe (a b : PriceRecord) : Prop := a.date ≤ b.date

instance : DecidableRel dateLe := fun a b => Nat.decLe a.date b.date

instance : IsTotal PriceRecord dateLe := ⟨fun a b => Nat.le_total a.date b.date⟩

instance : IsTrans PriceRecord dateLe := ⟨fun _ _ _ hab hbc => Nat.le_trans hab hbc⟩

/-- The second-cell event test of the source:
`'Dividend' in cells[1] or 'Stock Split' in cells[1]`. -/
def eventRow (cells : List String) : Prop :=
  strContains (cells.getD 1 "") "Dividend" = true ∨
    strContains (cells.getD 1 "") "Stock Split" = true

instance (cells : List String) : Decidable (eventRow cells) := by
  unfold eventRow; infer_instance

/-- Row selection of the source's `parse_table_html`: drop rows with fewer
than 6 cells, drop Dividend / Stock Split event rows, and assemble the
7-tuple `[date, open, high, low, close, adj_close, volume]` where
`adj_close = cells[5] if len(cells) > 5 else close` and
`volume = cells[6] if len(cells) > 6 else ''`. -/
def selectRow (cells : List String) : Option (List String) :=
  if cells.length < 6 then none
  else if 1 < cells.length ∧ eventRow cells then none
  else
    some [cells.getD 0 "", cells.getD 1 "", cells.getD 2 "", cells.getD 3 "",
      cells.getD 4 "",
      if 5 < cells.length then cells.getD 5 "" else cells.getD 4 "",
      if 6 < cells.length then cells.getD 6 "" else ""]

/-- Type conversion of one selected 7-tuple: `to_float` on the price cells,
`to_int` on the volume, `pd.to_datetime` + `dropna` on the date (a row whose
date does not parse is dropped).  The derived return column is added later,
after sorting, exactly as in the source. -/
def normalizeRow (row : List String) : Option PriceRecord :=
  match row with
  | [d, o, h, l, c, ac, v] =>
    match parseDate d with
    | some dt =>
      some { date := dt, open_ := to_float o, high := to_float h, low := to_float l,
             close := to_float c, adjClose := to_float ac, volume := to_int v,
             dailyReturn := none }
    | none => none
  | _ => none

/-- Selection followed by normalization, for one raw row. -/
def rowToRecord (cells : List String) : Option PriceRecord :=
  (selectRow cells).bind normalizeRow

/-- The derived column `df['Daily Return'] = (df['Close'] - df['Open']).round(4)`,
with pandas null (NaN) propagation. -/
def addDailyReturn (r : PriceRecord) : PriceRecord :=
  { r with dailyReturn :=
      match r.close, r.open_ with
      | some c, some o => some (round4 (c - o))
      | _, _ => none }

/-- A table as the extractor sees it: the `thead` text (absent when the
table has no `thead`) and the cell texts of each `tbody` row. -/
structure HtmlTable where
  headText : Option String
  bodyRows : List (List String)
deriving DecidableEq

/-- A rendered document: its tables in document order, and the result of the
structural fallback selector `#main-content-wrapper table`. -/
structure HtmlDoc where
  tables : List HtmlTable
  mainContentTable : Option HtmlTable
deriving DecidableEq

def headerTokens : List String := ["date", "open", "high", "low", "close", "volume"]

/-- The header heuristic: a table qualifies when its normalized `thead` text
contains every token in `{date, open, high, low, close, volume}`. -/
def headerMatches (t : HtmlTable) : Bool :=
  match t.headText with
  | none => false
  | some s => headerTokens.all (fun k => strContains (normHeader s) k)

/-- Table choice: first header-matching table, else the structural
fallback. -/
def pickTable (doc : HtmlDoc) : Option HtmlTable :=
  match doc.tables.find? headerMatches with
  | some t => some t
  | none => doc.mainContentTable

/-- The raw-row output of the table extractor. -/
def extractRows (t : HtmlTable) : List (List String) :=
  t.bodyRows.filterMap selectRow

def sortRecords (l : List PriceRecord) : List PriceRecord :=
  List.insertionSort dateLe l

/-- Full normalization of the chosen table: select rows, convert types and
drop unparseable dates, sort ascending by date, then add the derived
return column. -/
def normalizeTable (t : HtmlTable) : List PriceRecord :=
  (sortRecords ((extractRows t).filterMap normalizeRow)).map addDailyReturn

/-- The source's `parse_table_html`: choose the table (raising the typed
"table not found" `ValueError` when neither the heuristic nor the fallback
yields one) and normalize it. -/
def parse_table_html (doc : HtmlDoc) : Except String (List PriceRecord) :=
  match pickTable doc with
  | none => .error "Historical data table not found"
  | some t => .ok (normalizeTable t)

/-- One batch entry of `main`: the ticker and the outcome of
`scrape_ticker` for it — either the parsed record list or a raised
exception (navigation failure, table not found, ...). -/
structure BatchItem where
  ticker : String
  outcome : Except String (List PriceRecord)

/-- An item succeeds when scraping returned a non-empty record list; an
empty one triggers the source's `raise ValueError('No data extracted')`. -/
def itemSucceeds (it : BatchItem) : Bool :=
  match it.outcome with
  | .ok df => !df.isEmpty
  | .error _ => false

/-- Python dict assignment `all_data[ticker] = df`: replace in place, else
append. -/
def dictInsert (k : String) (v : List PriceRecord) :
    List (String × List PriceRecord) → List (String × List PriceRecord)
  | [] => [(k, v)]
  | (k', v') :: rest =>
    if k' = k then (k, v) :: rest else (k', v') :: dictInsert k v rest

/-- One pass of `main`'s per-ticker loop body: a successful item is stored
in `all_data`, a failed one (exception, or empty frame) is appended to
`failed` and the loop continues. -/
def stepItem (acc : List (String × List PriceRecord) × List String) (it : BatchItem) :
    List (String × List PriceRecord) × List String :=
  match it.outcome with
  | .error _ => (acc.1, acc.2 ++ [it.ticker])
  | .ok df =>
    if df.isEmpty then (acc.1, acc.2 ++ [it.ticker])
    else (dictInsert it.ticker df acc.1, acc.2)

/-- Outcome of one batch run of `main`. -/
structure BatchResult where
  allData : List (String × List PriceRecord)
  failed : List String
  fatalExit : Bool
deriving DecidableEq

/-- The source's `main`: iterate over every item, isolate per-item failure,
and call `sys.exit(1)` exactly when `all_data` ends up empty. -/
def run_main (items : List BatchItem) : BatchResult :=
  let acc := items.foldl stepItem ([], [])
  { allData := acc.1, failed := acc.2, fatalExit := acc.1.isEmpty }

/-- The loop body of `scroll_to_load_all_rows`, fuelled by the remaining
`range` iterations.  `counts i` is the valid-row count the page reports at
iteration `i` (the environment).  The result is the number of iterations
executed and whether the loop stopped through its `break`. -/
def scrollGo (counts : Nat → Nat) (patience : Nat) :
    Nat → Nat → Int → Nat → Nat × Bool
  | 0, i, _, _ => (i, false)
  | fuel + 1, i, last, stable =>
    let current := counts i
    let stable' := if (current : Int) = last then stable + 1 else 0
    if patience ≤ stable' then (i + 1, true)
    else scrollGo counts patience fuel (i + 1) (current : Int) stable'

/-- The source's `scroll_to_load_all_rows`, with `last_count = -1` and
`stable_rounds = 0` initially. -/
def scroll_to_load_all_rows (counts : Nat → Nat) (maxLoops patience : Nat) :
    Nat × Bool :=
  scrollGo counts patience maxLoops 0 (-1) 0

/-- The run length of unchanged measurements ending at measurement `j`
(the value of the source's `stable_rounds` right after measurement `j`;
the initial `last_count = -1` never equals a measured count). -/
def stableCount (c : Nat → Nat) : Nat → Nat
  | 0 => 0
  | j + 1 => if c (j + 1) = c j then stableCount c j + 1 else 0

/-- Value of `last_count` at the entry of iteration `i`. -/
def lastVal (c : Nat → Nat) : Nat → Int
  | 0 => -1
  | i + 1 => (c i : Int)

/-- Value of `stable_rounds` at the entry of iteration `i`. -/
def stableEntry (c : Nat → Nat) : Nat → Nat
  | 0 => 0
  | i + 1 => stableCount c i

/-- The attempt loop of `click_5y_and_wait`, fuelled by the remaining
attempts.  `aOk i` tells whether the body of attempt `i` (locate, click,
verify, table reload) runs to its `return`; `rOk i` whether the recovery
between attempts (`driver.refresh()` and the wait for table presence, which
the source runs outside any `try`) completes without raising.  The `.ok`
value is the number of attempts executed; `.error` models an exception
escaping to the caller. -/
def click5yGo (aOk rOk : Nat → Bool) (maxRetries : Nat) :
    Nat → Nat → Except String Nat
  | 0, attempt => .ok attempt
  | fuel + 1, attempt =>
    if aOk attempt then .ok (attempt + 1)
    else if attempt + 1 < maxRetries then
      if rOk attempt then click5yGo aOk rOk maxRetries fuel (attempt + 1)
      else .error "exception during refresh between attempts"
    else .ok (attempt + 1)

/-- The source's `click_5y_and_wait` with its default budget parameter. -/
def click_5y_and_wait (aOk rOk : Nat → Bool) (maxRetries : Nat) : Except String Nat :=
  click5yGo aOk rOk maxRetries maxRetries 0

/-! Concrete inputs used as counterexamples and witnesses. -/

/-- A document whose table renders the same date on two rows. -/
def c1doc : HtmlDoc :=
  { tables := [{ headText := some "Date Open High Low Close* Adj Close** Volume",
                 bodyRows := [["02 Jan 2020", "1", "1", "1", "1", "1", "100"],
                              ["02 Jan 2020", "2", "2", "2", "2", "2", "200"]] }],
    mainContentTable := none }

def c1recA : PriceRecord :=
  { date := 20200102, open_ := some 1, high := some 1, low := some 1,
    close := some 1, adjClose := some 1, volume := some 100, dailyReturn := some 0 }

def c1recB : PriceRecord :=
  { date := 20200102, open_ := some 2, high := some 2, low := some 2,
    close := some 2, adjClose := some 2, volume := some 200, dailyReturn := some 0 }

/-- A well-formed one-row document. -/
def c2doc : HtmlDoc :=
  { tables := [{ headText := some "Date Open High Low Close* Adj Close** Volume",
                 bodyRows := [["02 Jan 2020", "1.0", "2.0", "0.5", "1.5", "1.5", "100"]] }],
    mainContentTable := none }

def c2rec : PriceRecord :=
  { date := 20200102, open_ := some 1, high := some 2, low := some (1 / 2),
    close := some (3 / 2), adjClose := some (3 / 2), volume := some 100,
    dailyReturn := some (1 / 2) }

/-- A table holding one price row and one Dividend event row. -/
def c8table : HtmlTable :=
  { headText := some "Date Open High Low Close* Adj Close** Volume",
    bodyRows := [["02 Jan 2020", "1.0", "2.0", "0.5", "1.5", "1.5", "100"],
                 ["03 Jan 2020", "0.05 Dividend", "", "", "", "", ""]] }

def c8row : List String := ["02 Jan 2020", "1.0", "2.0", "0.5", "1.5", "1.5", "100"]

/-- An item whose scrape produced an empty record list. -/
def c9item : BatchItem := { ticker := "D05.SI", outcome := .ok [] }

/-- A six-cell row: no separate volume column beyond the sixth cell. -/
def c10cells : List String := ["02 Jan 2020", "1.0", "2.0", "0.5", "1.5", "9.9"]

def c10rec : PriceRecord :=
  { date := 20200102, open_ := some 1, high := some 2, low := some (1 / 2),
    close := some (3 / 2), adjClose := some (99 / 10), volume := none,
    dailyReturn := none }

/-! Helper lemmas about the batch loop, shared by several results. -/

theorem dictInsert_ne_nil (k : String) (v : List PriceRecord)
    (l : List (String × List PriceRecord)) : dictInsert k v l ≠ [] := by
  cases l with
  | nil => simp [dictInsert]
  | cons a rest => simp only [dictInsert]; split <;> simp

/-- The accumulated `all_data` is empty exactly when it started empty and no
item of the batch succeeded. -/
theorem foldl_stepItem_allData (items : List BatchItem)
    (acc : List (String × List PriceRecord) × List String) :
    (items.foldl stepItem acc).1 = [] ↔
      acc.1 = [] ∧ ∀ it ∈ items, itemSucceeds it = false := by
  induction items generalizing acc with
  | nil => simp
  | cons it rest ih =>
    rw [List.foldl_cons, ih]
    have hstep : (stepItem acc it).1 = [] ↔ acc.1 = [] ∧ itemSucceeds it = false := by
      unfold stepItem itemSucceeds
      cases it.outcome with
      | error e => simp
      | ok df =>
        cases hdf : df.isEmpty with
        | true => simp [hdf]
        | false => simp [hdf, dictInsert_ne_nil]
    rw [hstep]
    constructor
    · rintro ⟨⟨h1, h2⟩, h3⟩
      exact ⟨h1, by intro u hu; rcases List.mem_cons.mp hu with h | h
                    · exact h ▸ h2
                    · exact h3 u h⟩
    · rintro ⟨h1, h2⟩
      exact ⟨⟨h1, h2 it (by simp)⟩, fun u hu => h2 u (by simp [hu])⟩

/-- The accumulated `failed` list is the ticker of every unsuccessful item,
in batch order: each failure is recorded and the loop moves on. -/
theorem foldl_stepItem_failed (items : List BatchItem)
    (acc : List (String × List PriceRecord) × List String) :
    (items.foldl stepItem acc).2 =
      acc.2 ++ (items.filter (fun it => !itemSucceeds it)).map BatchItem.ticker := by
  induction items generalizing acc with
  | nil => simp
  | cons it rest ih =>
    rw [List.foldl_cons, ih]
    have hstep : (stepItem acc it).2 =
        acc.2 ++ (if itemSucceeds it then [] else [it.ticker]) := by
      unfold stepItem itemSucceeds
      cases it.outcome with
      | error e => simp
      | ok df => cases hdf : df.isEmpty <;> simp [hdf]
    rw [hstep]
    cases hs : itemSucceeds it <;> simp [hs, List.filter_cons]

/-- C3: the batch run of `main` calls `sys.exit(1)` exactly when no input
item succeeds; every per-item failure is only recorded in `failed` (the
remaining items are still folded over), so partial success is never
fatal. -/
theorem c3_batch_fatal_iff (items : List BatchItem) :
    ((run_main items).fatalExit = true ↔ ∀ it ∈ items, itemSucceeds it = false) ∧
    (run_main items).failed =
      (items.filter (fun it => !itemSucceeds it)).map BatchItem.ticker := by
  unfold run_main
  refine ⟨?_, ?_⟩
  · rw [List.isEmpty_iff, foldl_stepItem_allData]
    simp
  · simpa using foldl_stepItem_failed items ([], [])

/-- C4: numeric coercion handles the thousands separator, maps each of the
sentinels `""`, `"-"`, `"N/A"`, `"NA"`, `"--"` and the unparseable `"abc"`
to null, never raising: `"NA"`, `"--"` and `"abc"` make the inner `float`
call raise `ValueError` (visible on `to_float_try`), which the surrounding
`except` turns into null rather than propagating. -/
theorem c4_to_float_coercion :
    to_float "1,234.50" = some ((2469 : ℚ) / 2) ∧
    to_float "" = none ∧
    to_float "-" = none ∧
    to_float "N/A" = none ∧
    to_float "NA" = none ∧
    to_float "--" = none ∧
    to_float "abc" = none ∧
    to_float_try "NA" = .error PyErr.valueError ∧
    to_float_try "--" = .error PyErr.valueError ∧
    to_float_try "abc" = .error PyErr.valueError ∧
    to_float "1,234.50" ≠ some 0 := by
  refine ⟨by with_unfolding_all rfl, rfl, rfl, rfl, rfl, rfl, rfl, rfl, rfl, rfl, ?_⟩
  with_unfolding_all decide

/-- C6 counterexample: with the default budget of 3 attempts, if every
attempt body fails and the page refresh between attempts also raises (the
source runs `driver.refresh()` and the table-presence wait inside the
`except` handler but outside any `try`), the exception escapes
`click_5y_and_wait` to its caller — refuting "never propagates an
exception". -/
theorem c6_counterexample :
    click_5y_and_wait (fun _ => false) (fun _ => false) 3 =
      .error "exception during refresh between attempts" := rfl

/-- C6 as amended: as long as the inter-attempt refresh and table wait do
not themselves raise, `click_5y_and_wait` returns normally after at most
`maxRetries` attempts, whatever the attempt bodies do — the degraded path
never fails the ticker. -/
theorem c6_amended_degrade (aOk rOk : Nat → Bool) (m : Nat)
    (hr : ∀ i, rOk i = true) :
    ∃ n, click_5y_and_wait aOk rOk m = .ok n ∧ n ≤ m := by
  have key : ∀ fuel attempt, ∃ n,
      click5yGo aOk rOk m fuel attempt = .ok n ∧ n ≤ attempt + fuel := by
    intro fuel
    induction fuel with
    | zero => intro a; exact ⟨a, rfl, by omega⟩
    | succ f ih =>
      intro a
      unfold click5yGo
      by_cases ha : aOk a
      · exact ⟨a + 1, by simp [ha], by omega⟩
      · by_cases hc : a + 1 < m
        · obtain ⟨n, h1, h2⟩ := ih (a + 1)
          exact ⟨n, by simp [ha, hc, hr a, h1], by omega⟩
        · exact ⟨a + 1, by simp [ha, hc], by omega⟩
  obtain ⟨n, h1, h2⟩ := key m 0
  exact ⟨n, h1, by omega⟩

/-- Witness for the amended C6 at a concrete input: every attempt body
fails, every refresh succeeds, budget 3. -/
theorem c6_amended_witness :
    ∃ n, click_5y_and_wait (fun _ => false) (fun _ => true) 3 = .ok n ∧ n ≤ 3 :=
  c6_amended_degrade (fun _ => false) (fun _ => true) 3 (fun _ => rfl)

/-- C9 counterexample: on a page stuck at 0 valid rows the loader's outcome
is exactly the outcome of a healthy page converged at 500 rows — a normal
return after 4 iterations.  The source function raises nothing and returns
`None`, so a zero row count after the first iteration is swallowed by the
convergence loop, not propagated to the caller. -/
theorem c9_counterexample :
    scroll_to_load_all_rows (fun _ => 0) 50 3 = (4, true) ∧
    scroll_to_load_all_rows (fun _ => 500) 50 3 = (4, true) := ⟨rfl, rfl⟩

/-- C9 as amended: the zero-data condition surfaces only downstream — an
item whose extraction yields no records (or raises) is recorded as failed
by the orchestrator. -/
theorem c9_amended_downstream (items : List BatchItem) (it : BatchItem)
    (h1 : it ∈ items) (h2 : itemSucceeds it = false) :
    it.ticker ∈ (run_main items).failed := by
  show it.ticker ∈ (items.foldl stepItem ([], [])).2
  rw [foldl_stepItem_failed items ([], [])]
  simp only [List.nil_append]
  exact List.mem_map_of_mem _ (List.mem_filter.mpr ⟨h1, by simp [h2]⟩)

/-- Witness for the amended C9: a ticker whose scrape returned an empty
record list lands in the failed list. -/
theorem c9_amended_witness : c9item.ticker ∈ (run_main [c9item]).failed :=
  c9_amended_downstream [c9item] c9item (by simp) rfl

/-- Null-propagation and derivation behaviour of the derived-return
column, per record. -/
theorem addDailyReturn_spec (r : PriceRecord) :
    (∀ cv ov, (addDailyReturn r).close = some cv → (addDailyReturn r).open_ = some ov →
        (addDailyReturn r).dailyReturn = some (round4 (cv - ov))) ∧
    (((addDailyReturn r).close = none ∨ (addDailyReturn r).open_ = none) →
        (addDailyReturn r).dailyReturn = none) := by
  unfold addDailyReturn
  cases hc : r.close <;> cases ho : r.open_ <;> simp [hc, ho]

/-- Every record in a parse result arises as `addDailyReturn` of a sorted
intermediate record. -/
theorem parse_ok_structure (doc : HtmlDoc) (recs : List PriceRecord)
    (hp : parse_table_html doc = .ok recs) :
    ∃ t, pickTable doc = some t ∧ normalizeTable t = recs := by
  unfold parse_table_html at hp
  cases hpt : pickTable doc with
  | none => rw [hpt] at hp; exact absurd hp (by simp)
  | some t =>
    rw [hpt] at hp
    exact ⟨t, rfl, by injection hp⟩

/-- C1 counterexample: the source sorts but never deduplicates, so a table
rendering the same date twice yields two records with equal dates — the
dates of a result are not strictly increasing, not unique. -/
theorem c1_counterexample :
    parse_table_html c1doc = .ok [c1recA, c1recB] ∧
    c1recA.date = c1recB.date ∧
    ¬ List.Pairwise (fun a b : PriceRecord => a.date < b.date) [c1recA, c1recB] := by
  refine ⟨by with_unfolding_all rfl, rfl, ?_⟩
  intro h
  exact absurd ((List.pairwise_cons.mp h).1 c1recB (by simp)) (by decide)

/-- C1 as amended: every parse result is sorted ascending (non-strictly) by
date; duplicate dates are preserved, not merged. -/
theorem c1_amended_sorted (doc : HtmlDoc) (recs : List PriceRecord)
    (hp : parse_table_html doc = .ok recs) :
    List.Sorted dateLe recs := by
  obtain ⟨t, -, hn⟩ := parse_ok_structure doc recs hp
  subst hn
  unfold normalizeTable sortRecords
  have hs := List.sorted_insertionSort dateLe ((extractRows t).filterMap normalizeRow)
  exact List.Pairwise.map addDailyReturn (fun a b hab => hab) hs

/-- Witness for the amended C1 at the duplicate-date document. -/
theorem c1_amended_witness : List.Sorted dateLe [c1recA, c1recB] :=
  c1_amended_sorted c1doc [c1recA, c1recB] (by with_unfolding_all rfl)

/-- C2: in every parse result, the derived `Daily Return` field is
`round(close - open, 4)` when both `close` and `open` are non-null, and
null as soon as either is null. -/
theorem c2_daily_return (doc : HtmlDoc) (recs : List PriceRecord) (r : PriceRecord)
    (hp : parse_table_html doc = .ok recs) (hr : r ∈ recs) :
    (∀ cv ov, r.close = some cv → r.open_ = some ov →
        r.dailyReturn = some (round4 (cv - ov))) ∧
    ((r.close = none ∨ r.open_ = none) → r.dailyReturn = none) := by
  obtain ⟨t, -, hn⟩ := parse_ok_structure doc recs hp
  subst hn
  unfold normalizeTable at hr
  obtain ⟨r₀, -, hr0⟩ := List.mem_map.mp hr
  subst hr0
  exact addDailyReturn_spec r₀

/-- Witness for C2 at a concrete one-row document. -/
theorem c2_witness :
    (∀ cv ov, c2rec.close = some cv → c2rec.open_ = some ov →
        c2rec.dailyReturn = some (round4 (cv - ov))) ∧
    ((c2rec.close = none ∨ c2rec.open_ = none) → c2rec.dailyReturn = none) :=
  c2_daily_return c2doc [c2rec] c2rec (by with_unfolding_all rfl) (by simp)

/-- C8: no raw row produced by the table extractor has a second cell
containing "Dividend" or "Stock Split": such event rows are discarded
before normalization. -/
theorem c8_event_rows_filtered (t : HtmlTable) (row : List String)
    (h : row ∈ extractRows t) (s : String) (hs : row.get? 1 = some s) :
    strContains s "Dividend" = false ∧ strContains s "Stock Split" = false := by
  obtain ⟨cells, -, hsel⟩ := List.mem_filterMap.mp h
  unfold selectRow at hsel
  split at hsel
  · exact absurd hsel (by simp)
  · split at hsel
    · exact absurd hsel (by simp)
    · rename_i h6 hev
      injection hsel with hrow
      subst hrow
      simp only [List.get?] at hs
      injection hs with hs'
      subst hs'
      have h1 : 1 < cells.length := by omega
      have hne : ¬ eventRow cells := fun he => hev ⟨h1, he⟩
      simpa [eventRow, not_or] using hne

/-- Witness for C8: the price row of `c8table` survives extraction and its
second cell is free of both markers. -/
theorem c8_witness :
    strContains "1.0" "Dividend" = false ∧ strContains "1.0" "Stock Split" = false :=
  c8_event_rows_filtered c8table c8row (by decide) "1.0" (by decide)

/-- C10 counterexample: on a six-cell row the produced record takes its
`Adj Close` from the sixth cell (here 9.9), which differs from the `Close`
cell's value (1.5) — the `else close` fallback in the source is dead code
because rows shorter than six cells were already dropped.  The volume half
of the claim does hold: the missing seventh cell defaults to `""`, which
coerces to null. -/
theorem c10_counterexample :
    rowToRecord c10cells = some c10rec ∧
    c10rec.close = some ((3 : ℚ) / 2) ∧
    c10rec.adjClose = some ((99 : ℚ) / 10) ∧
    c10rec.adjClose ≠ c10rec.close ∧
    c10rec.volume = none := by
  refine ⟨by with_unfolding_all rfl, rfl, rfl, ?_, rfl⟩
  with_unfolding_all decide

/-- C10 as amended: for every six-cell row that yields a record, the
record's `Adj Close` is the numeric coercion of the sixth cell, and its
volume is null (the absent cell defaults to the empty string, which
coerces to null). -/
theorem c10_amended_sixth_cell (cells : List String) (r : PriceRecord)
    (h6 : cells.length = 6) (hr : rowToRecord cells = some r) :
    r.adjClose = to_float (cells.getD 5 "") ∧ r.volume = none := by
  rcases cells with _ | ⟨a, _ | ⟨b, _ | ⟨c, _ | ⟨d, _ | ⟨e, _ | ⟨f, _ | ⟨g, t⟩⟩⟩⟩⟩⟩⟩ <;>
    simp only [List.length_cons, List.length_nil] at h6 <;> try omega
  unfold rowToRecord selectRow at hr
  norm_num at hr
  split at hr
  · exact absurd hr (by simp)
  · rw [show ∀ x : List String, (some x).bind normalizeRow = normalizeRow x
        from fun _ => rfl] at hr
    simp only [normalizeRow] at hr
    cases hd : parseDate a with
    | none => rw [hd] at hr; exact absurd hr (by simp)
    | some dt =>
      rw [hd] at hr
      simp only [Option.some.injEq] at hr
      subst hr
      exact ⟨rfl, rfl⟩

/-- Witness for the amended C10 at the concrete six-cell row. -/
theorem c10_amended_witness :
    c10rec.adjClose = to_float (c10cells.getD 5 "") ∧ c10rec.volume = none :=
  c10_amended_sixth_cell c10cells c10rec rfl (by with_unfolding_all rfl)

/-! Lemmas about the scroll loop. -/

/-- The loop executes at most `fuel` more iterations. -/
theorem scrollGo_fst_le (c : Nat → Nat) (p : Nat) :
    ∀ fuel i last stable, (scrollGo c p fuel i last stable).1 ≤ i + fuel := by
  intro fuel
  induction fuel with
  | zero => intro i last stable; simp [scrollGo]
  | succ f ih =>
    intro i last stable
    unfold scrollGo
    dsimp only
    generalize (if (c i : Int) = last then stable + 1 else 0) = s'
    split
    · show i + 1 ≤ i + (f + 1)
      omega
    · have := ih (i + 1) (c i : Int) s'
      omega

/-- The `stable_rounds` value computed during iteration `i` is the run
length of unchanged measurements ending at measurement `i`. -/
theorem stable_step (c : Nat → Nat) (i : Nat) :
    (if (c i : Int) = lastVal c i then stableEntry c i + 1 else 0) = stableCount c i := by
  cases i with
  | zero =>
    simp only [lastVal, stableEntry, stableCount]
    rw [if_neg (by omega)]
  | succ n =>
    simp only [lastVal, stableEntry, stableCount]
    by_cases h : c (n + 1) = c n
    · rw [if_pos (by exact_mod_cast h), if_pos h]
    · rw [if_neg (fun hh => h (by exact_mod_cast hh)), if_neg h]

/-- One unfolding of the loop from a reachable state. -/
theorem scrollGo_succ (c : Nat → Nat) (p f i : Nat) :
    scrollGo c p (f + 1) i (lastVal c i) (stableEntry c i) =
      if p ≤ stableCount c i then (i + 1, true)
      else scrollGo c p f (i + 1) (lastVal c (i + 1)) (stableEntry c (i + 1)) := by
  have hl : lastVal c (i + 1) = (c i : Int) := rfl
  have hs : stableEntry c (i + 1) = stableCount c i := rfl
  rw [hl, hs]
  show (if p ≤ (if (c i : Int) = lastVal c i then stableEntry c i + 1 else 0)
        then (i + 1, true)
        else scrollGo c p f (i + 1) (c i : Int)
          (if (c i : Int) = lastVal c i then stableEntry c i + 1 else 0)) =
      if p ≤ stableCount c i then (i + 1, true)
      else scrollGo c p f (i + 1) (c i : Int) (stableCount c i)
  rw [stable_step]

/-- The loop breaks exactly when some iteration within the remaining budget
reaches the patience threshold. -/
theorem scrollGo_break_iff (c : Nat → Nat) (p : Nat) :
    ∀ fuel i, ((scrollGo c p fuel i (lastVal c i) (stableEntry c i)).2 = true ↔
      ∃ j, i ≤ j ∧ j < i + fuel ∧ p ≤ stableCount c j) := by
  intro fuel
  induction fuel with
  | zero =>
    intro i
    constructor
    · intro h; exact absurd h (by simp [scrollGo])
    · rintro ⟨j, h1, h2, -⟩; omega
  | succ f ih =>
    intro i
    rw [scrollGo_succ]
    by_cases hb : p ≤ stableCount c i
    · rw [if_pos hb]
      constructor
      · intro _; exact ⟨i, le_refl i, by omega, hb⟩
      · intro _; rfl
    · rw [if_neg hb, ih (i + 1)]
      constructor
      · rintro ⟨j, h1, h2, h3⟩; exact ⟨j, by omega, by omega, h3⟩
      · rintro ⟨j, h1, h2, h3⟩
        refine ⟨j, ?_, by omega, h3⟩
        rcases Nat.eq_or_lt_of_le h1 with heq | hlt
        · exact absurd (heq ▸ h3) hb
        · omega

/-- `stable_rounds` reaching `p` at measurement `j` is the same as the last
`p + 1` measurements (positions `j - p` to `j`) being all equal. -/
theorem stableCount_ge_iff (c : Nat → Nat) :
    ∀ j p, p ≤ stableCount c j ↔ (p ≤ j ∧ ∀ k ≤ p, c (j - k) = c j) := by
  intro j
  induction j with
  | zero =>
    intro p
    simp only [stableCount]
    constructor
    · intro h
      have hp : p = 0 := by omega
      subst hp
      exact ⟨le_refl 0, fun k hk => by
        have : k = 0 := by omega
        subst this; rfl⟩
    · rintro ⟨h1, -⟩; omega
  | succ n ih =>
    intro p
    simp only [stableCount]
    by_cases h : c (n + 1) = c n
    · rw [if_pos h]
      cases p with
      | zero =>
        constructor
        · intro _
          exact ⟨by omega, fun k hk => by
            have : k = 0 := by omega
            subst this; rfl⟩
        · intro _; omega
      | succ q =>
        rw [Nat.succ_le_succ_iff, ih q]
        constructor
        · rintro ⟨h1, h2⟩
          refine ⟨by omega, ?_⟩
          intro k hk
          cases k with
          | zero => rfl
          | succ j' =>
            have hk' : j' ≤ q := by omega
            rw [show n + 1 - (j' + 1) = n - j' from by omega, h2 j' hk', h]
        · rintro ⟨h1, h2⟩
          refine ⟨by omega, ?_⟩
          intro k hk
          have hh := h2 (k + 1) (by omega)
          rw [show n + 1 - (k + 1) = n - k from by omega] at hh
          exact hh.trans h
    · rw [if_neg h]
      constructor
      · intro hp
        have hp0 : p = 0 := by omega
        subst hp0
        exact ⟨by omega, fun k hk => by
          have : k = 0 := by omega
          subst this; rfl⟩
      · rintro ⟨h1, h2⟩
        by_contra hp
        have hh := h2 1 (by omega)
        rw [show n + 1 - 1 = n from by omega] at hh
        exact h hh.symm

/-- C5: the pagination loop always terminates within its `max_loops`
budget, and it breaks out early exactly when, at some iteration inside the
budget, the measured row count has gone unchanged through the patience
threshold of consecutive checks (the last `patience + 1` measurements all
equal). -/
theorem c5_scroll_convergence (c : Nat → Nat) (m p : Nat) :
    (scroll_to_load_all_rows c m p).1 ≤ m ∧
    ((scroll_to_load_all_rows c m p).2 = true ↔
      ∃ j, j < m ∧ p ≤ j ∧ ∀ k ≤ p, c (j - k) = c j) := by
  constructor
  · have h := scrollGo_fst_le c p m 0 (-1) 0
    simpa [scroll_to_load_all_rows] using h
  · rw [show scroll_to_load_all_rows c m p =
        scrollGo c p m 0 (lastVal c 0) (stableEntry c 0) from rfl,
      scrollGo_break_iff c p m 0]
    constructor
    · rintro ⟨j, -, h2, h3⟩
      obtain ⟨h4, h5⟩ := (stableCount_ge_iff c j p).mp h3
      exact ⟨j, by omega, h4, h5⟩
    · rintro ⟨j, h1, h2, h3⟩
      exact ⟨j, by omega, by omega, (stableCount_ge_iff c j p).mpr ⟨h2, h3⟩⟩

/-- `find?` returns the first element satisfying the test when everything
before it fails the test. -/
theorem find_first_of_front_false {α : Type} (p : α → Bool) (l₁ l₂ : List α) (t : α)
    (h1 : ∀ u ∈ l₁, p u = false) (ht : p t = true) :
    (l₁ ++ t :: l₂).find? p = some t := by
  induction l₁ with
  | nil => simp [List.find?, ht]
  | cons a as ih =>
    have ha := h1 a (by simp)
    rw [List.cons_append]
    simp only [List.find?, ha]
    exact ih (fun u hu => h1 u (by simp [hu]))

/-- C7: the extractor picks the first table whose normalized header text
contains all of {date, open, high, low, close, volume}; when no table
qualifies it falls back to the structural `#main-content-wrapper table`
selector; and the typed "table not found" error is raised exactly when both
the heuristic and the fallback yield nothing. -/
theorem c7_table_selection (doc : HtmlDoc) :
    (∀ l₁ t l₂, doc.tables = l₁ ++ t :: l₂ → (∀ u ∈ l₁, headerMatches u = false) →
        headerMatches t = true → pickTable doc = some t) ∧
    ((∀ u ∈ doc.tables, headerMatches u = false) →
        pickTable doc = doc.mainContentTable) ∧
    ((∃ e, parse_table_html doc = .error e) ↔
      ((∀ u ∈ doc.tables, headerMatches u = false) ∧ doc.mainContentTable = none)) := by
  have hnone : doc.tables.find? headerMatches = none ↔
      ∀ u ∈ doc.tables, headerMatches u = false := by
    rw [List.find?_eq_none]
    simp
  refine ⟨?_, ?_, ?_⟩
  · intro l₁ t l₂ hsplit h1 ht
    unfold pickTable
    rw [hsplit, find_first_of_front_false headerMatches l₁ l₂ t h1 ht]
  · intro hall
    unfold pickTable
    rw [hnone.mpr hall]
  · constructor
    · rintro ⟨e, he⟩
      unfold parse_table_html at he
      cases hpt : pickTable doc with
      | some t => rw [hpt] at he; exact absurd he (by simp)
      | none =>
        unfold pickTable at hpt
        cases hfind : doc.tables.find? headerMatches with
        | some t => rw [hfind] at hpt; exact absurd hpt (by simp)
        | none =>
          rw [hfind] at hpt
          exact ⟨hnone.mp hfind, hpt⟩
    · rintro ⟨hall, hmain⟩
      refine ⟨"Historical data table not found", ?_⟩
      unfold parse_table_html pickTable
      rw [hnone.mpr hall, hmain]
